import Mathlib

/-!
Verification of `twitter_bot.py` (class `TwitterBot`).

Python strings are modelled as `List Char` (`PyStr`), Python's `str.lower`
as a character-wise `Char.toLower` map, and the Python substring test
`needle in haystack` as an executable occurs-check on character lists.

The quota store file `validation_data/users_data.json` holds a JSON object
mapping user id to `{"requests": n}`; it is modelled as an association list
`UsersData` in object order.  File-reading methods take the parsed store as
input; methods that rewrite the file return the new store contents.
-/

namespace TwitterBot

/-- A Python string, modelled as its list of characters. -/
abbrev PyStr := List Char

/-- Python `s.lower()`: character-wise lower-casing. -/
def lower (s : PyStr) : PyStr := s.map Char.toLower

/-- Helper for the substring test: does `needle` start `haystack`? -/
def startsWith : PyStr → PyStr → Bool
  | [], _ => true
  | _ :: _, [] => false
  | a :: as, b :: bs => a == b && startsWith as bs

/-- Python `needle in haystack` on strings: substring occurrence. -/
def inStr (needle : PyStr) : PyStr → Bool
  | [] => startsWith needle []
  | b :: bs => startsWith needle (b :: bs) || inStr needle bs

/-- Parsed contents of `validation_data/users_data.json`: user id ↦ value of
the `requests` field, in JSON object order. -/
abbrev UsersData := List (String × Nat)

/-- Model of `TwitterBot.validate_user` (twitter_bot.py:87-108).  Reads the quota
file; if the user has a record with `requests ≥ 5` returns `False`, with
`requests < 5` returns `True`, and with no record returns `True`.  The file
is opened read-only, so the store is returned unchanged as the second
component. -/
def validate_user (users_data : UsersData) (user_id : String) :
    Bool × UsersData :=
  match users_data.lookup user_id with
  | none => (true, users_data)
  | some user_requests =>
      (if user_requests ≥ 5 then false else true, users_data)

/-- Model of `TwitterBot.update_validation_data` (twitter_bot.py:110-125).  Reads the
quota file; if the user has a record, increments its `requests` field in
place (dict order preserved), otherwise merges in a fresh record
`{user_id: {"requests": 1}}`, which appends the new key at the end; then
rewrites the whole file.  Returns the new file contents. -/
def update_validation_data (users_data : UsersData) (user_id : String) :
    UsersData :=
  if (users_data.lookup user_id).isSome then
    users_data.map (fun kv => if kv.1 = user_id then (kv.1, kv.2 + 1) else kv)
  else
    users_data ++ [(user_id, 1)]

/-- Recorded request count of a user, 0 when absent. -/
def getRequests (users_data : UsersData) (user_id : String) : Nat :=
  ((users_data.lookup user_id).map id).getD 0

lemma lookup_map_incr (s : UsersData) (u v : String) :
    (s.map (fun kv => if kv.1 = u then (kv.1, kv.2 + 1) else kv)).lookup v
      = if v = u then (s.lookup v).map (· + 1) else s.lookup v := by
  induction s with
  | nil => by_cases hvu : v = u <;> simp [hvu]
  | cons kv rest ih =>
      obtain ⟨k, c⟩ := kv
      have hfst : (if (k, c).1 = u then ((k, c).1, (k, c).2 + 1) else (k, c))
          = (k, if k = u then c + 1 else c) := by
        by_cases h : k = u <;> simp [h]
      rw [List.map_cons, hfst, List.lookup_cons, List.lookup_cons]
      by_cases hvk : v = k
      · subst hvk
        by_cases hvu : v = u <;> simp [hvu]
      · have hb : (v == k) = false := beq_eq_false_iff_ne.mpr hvk
        rw [hb]
        simp only [ih]

lemma lookup_append_of_ne (s : UsersData) (u v : String) (c : Nat)
    (h : v ≠ u) :
    (s ++ [(u, c)]).lookup v = s.lookup v := by
  induction s with
  | nil =>
      have hb : (v == u) = false := beq_eq_false_iff_ne.mpr h
      simp [List.lookup_cons, hb]
  | cons kv rest ih =>
      obtain ⟨k, d⟩ := kv
      rw [List.cons_append, List.lookup_cons, List.lookup_cons]
      by_cases hvk : v = k
      · subst hvk; simp
      · have hb : (v == k) = false := beq_eq_false_iff_ne.mpr hvk
        rw [hb, ih]

lemma lookup_append_self (s : UsersData) (u : String) (c : Nat)
    (h : s.lookup u = none) :
    (s ++ [(u, c)]).lookup u = some c := by
  induction s with
  | nil => simp [List.lookup_cons]
  | cons kv rest ih =>
      obtain ⟨k, d⟩ := kv
      rw [List.lookup_cons] at h
      rw [List.cons_append, List.lookup_cons]
      by_cases huk : u = k
      · subst huk
        simp at h
      · have hb : (u == k) = false := beq_eq_false_iff_ne.mpr huk
        rw [hb] at h ⊢
        exact ih h

/-- Claim C1: for every user id present in the quota store with recorded
request count `c`, `validate_user` returns `true` iff `c < 5`. -/
theorem claimC1_validate_user_iff_lt_five
    (s : UsersData) (u : String) (c : Nat) (h : s.lookup u = some c) :
    (validate_user s u).1 = true ↔ c < 5 := by
  constructor
  · intro ht
    by_contra hlt
    have hc : c ≥ 5 := by omega
    simp [validate_user, h, hc] at ht
  · intro hlt
    have hc : ¬c ≥ 5 := by omega
    simp [validate_user, h, hc]

/-- Witness for C1: with 4 recorded requests `validate_user` returns `true`,
and with 5 it returns `false`. -/
theorem claimC1_witness :
    (validate_user [("77", 4)] "77").1 = true ∧
      (validate_user [("77", 5)] "77").1 = false := by
  constructor
  · exact (claimC1_validate_user_iff_lt_five [("77", 4)] "77" 4 (by decide)).mpr
      (by decide)
  · have h5 := claimC1_validate_user_iff_lt_five [("77", 5)] "77" 5 (by decide)
    revert h5
    decide

/-- Claim C2: for every user id with no record in the quota store,
`validate_user` returns `true` and leaves the store unchanged. -/
theorem claimC2_validate_user_absent
    (s : UsersData) (u : String) (h : s.lookup u = none) :
    (validate_user s u).1 = true ∧ (validate_user s u).2 = s := by
  simp [validate_user, h]

/-- Witness for C2 at a concrete store and absent user. -/
theorem claimC2_witness :
    (validate_user [("1", 3)] "2").1 = true ∧
      (validate_user [("1", 3)] "2").2 = [("1", 3)] :=
  claimC2_validate_user_absent [("1", 3)] "2" (by decide)

/-- Claim C6: `update_validation_data` increments an existing record's count
by exactly 1, and otherwise appends a fresh record with count 1 to the
rewritten mapping. -/
theorem claimC6_update_validation_data
    (s : UsersData) (u : String) :
    (∀ c, s.lookup u = some c →
        (update_validation_data s u).lookup u = some (c + 1)) ∧
      (s.lookup u = none → update_validation_data s u = s ++ [(u, 1)]) := by
  constructor
  · intro c hc
    simp only [update_validation_data, hc, Option.isSome_some, if_true]
    rw [lookup_map_incr s u u]
    simp [hc]
  · intro hnone
    simp [update_validation_data, hnone]

/-- Witness for C6: incrementing an existing count 2 → 3, and creating a
fresh record with count 1. -/
theorem claimC6_witness :
    (update_validation_data [("9", 2)] "9").lookup "9" = some 3 ∧
      update_validation_data [("9", 2)] "4" = [("9", 2), ("4", 1)] := by
  constructor
  · exact (claimC6_update_validation_data [("9", 2)] "9").1 2 (by decide)
  · exact (claimC6_update_validation_data [("9", 2)] "4").2 (by decide)

/-- Claim C7: counts stay ≥ 1 under `update_validation_data`,
`validate_user` leaves the store unchanged, and `update_validation_data`
never decreases any user's count. -/
theorem claimC7_quota_invariant
    (s : UsersData) (u v : String) :
    ((∀ kv ∈ s, 1 ≤ kv.2) →
        ∀ kv ∈ update_validation_data s u, 1 ≤ kv.2) ∧
      (validate_user s v).2 = s ∧
      getRequests s v ≤ getRequests (update_validation_data s u) v := by
  refine ⟨?_, ?_, ?_⟩
  · intro hs kv hkv
    simp only [update_validation_data] at hkv
    split at hkv
    · obtain ⟨⟨k, c⟩, hmem, heq⟩ := List.mem_map.mp hkv
      by_cases hk : k = u
      · simp only [hk, if_pos rfl] at heq
        subst heq
        show 1 ≤ c + 1
        omega
      · simp only [hk, if_false] at heq
        subst heq
        exact hs _ hmem
    · rcases List.mem_append.mp hkv with h | h
      · exact hs _ h
      · simp only [List.mem_singleton] at h
        subst h
        exact le_refl 1
  · cases h : s.lookup v <;> simp [validate_user, h]
  · simp only [update_validation_data, getRequests]
    cases hu : s.lookup u with
    | some c =>
        simp only [hu, Option.isSome_some, if_true]
        rw [lookup_map_incr s u v]
        by_cases hvu : v = u
        · subst hvu
          simp [hu]
        · simp [hvu]
    | none =>
        simp only [hu, Option.isSome_none, Bool.false_eq_true, if_false]
        by_cases hvu : v = u
        · subst hvu
          rw [lookup_append_self s v 1 hu, hu]
          simp
        · rw [lookup_append_of_ne s u v 1 hvu]

/-- Claim C10: `update_validation_data` leaves every other user's record
unchanged. -/
theorem claimC10_frame
    (s : UsersData) (u v : String) (h : v ≠ u) :
    (update_validation_data s u).lookup v = s.lookup v := by
  simp only [update_validation_data]
  split
  · rw [lookup_map_incr s u v]
    simp [h]
  · exact lookup_append_of_ne s u v 1 h

/-- Witness for C10 at a concrete store: updating user "a" leaves "b"
unchanged. -/
theorem claimC10_witness :
    (update_validation_data [("a", 2), ("b", 7)] "a").lookup "b" = some 7 := by
  have := claimC10_frame [("a", 2), ("b", 7)] "a" "b" (by decide)
  rw [this]
  decide

/-! ### Cursor store (`validation_data/last_seen_tweet_id.txt`)

The cursor file holds decimal text.  Python's built-in `str` on an integer
and `int` on a string are modelled character-exactly: `str` produces the
decimal digit string with an optional leading minus sign, `int` accepts an
optionally signed all-digit string and raises otherwise (modelled as
`none`), and `str.strip()` removes leading/trailing whitespace. -/

/-- Is `c` a decimal digit character `'0'`..`'9'`? -/
def isDigitChar (c : Char) : Bool := 48 ≤ c.toNat && c.toNat ≤ 57

/-- Is `c` whitespace removed by Python's `str.strip()`? -/
def isSpaceChar (c : Char) : Bool :=
  c.toNat = 32 || c.toNat = 9 || c.toNat = 10 || c.toNat = 13 ||
    c.toNat = 11 || c.toNat = 12

/-- Numeric value of a digit character. -/
def charVal (c : Char) : Nat := c.toNat - 48

/-- Python `str(n)` for a natural number: its decimal digit string. -/
def pyStrNat (n : Nat) : PyStr :=
  if n = 0 then ['0'] else ((Nat.digits 10 n).map Nat.digitChar).reverse

/-- Python `str(x)` for an integer: optional minus sign, then the decimal
digits of its absolute value. -/
def pyStr (x : Int) : PyStr :=
  if x < 0 then '-' :: pyStrNat x.natAbs else pyStrNat x.natAbs

/-- Python `int(s)` on an unsigned decimal literal; `none` models the
`ValueError` raised on a non-numeric string. -/
def pyNat? (l : PyStr) : Option Nat :=
  if !l.isEmpty && l.all isDigitChar then
    some (Nat.ofDigits 10 ((l.map charVal).reverse))
  else none

/-- Python `int(s)` on an optionally minus-signed decimal literal. -/
def pyInt? (l : PyStr) : Option Int :=
  if l.head? = some '-' then (pyNat? l.tail).map (fun (n : Nat) => -(n : Int))
  else (pyNat? l).map (fun (n : Nat) => (n : Int))

/-- Python `s.strip()`: remove leading and trailing whitespace. -/
def strip (l : PyStr) : PyStr :=
  ((l.dropWhile isSpaceChar).reverse.dropWhile isSpaceChar).reverse

/-- Model of `TwitterBot.store_last_seen_tweet_id` (twitter_bot.py:74-85): overwrites
the cursor file with `str(last_seen_tweet_id)`; returns the new file
contents. -/
def store_last_seen_tweet_id (last_seen_tweet_id : Int) : PyStr :=
  pyStr last_seen_tweet_id

/-- Model of `TwitterBot.get_last_seen_tweet_id` (twitter_bot.py:65-72): reads the
cursor file and returns `int(contents.strip())`; `none` models the
exception raised on non-numeric contents. -/
def get_last_seen_tweet_id (file_contents : PyStr) : Option Int :=
  pyInt? (strip file_contents)

lemma digitChar_isDigit {d : Nat} (hd : d < 10) :
    isDigitChar (Nat.digitChar d) = true := by
  interval_cases d <;> decide

lemma charVal_digitChar {d : Nat} (hd : d < 10) :
    charVal (Nat.digitChar d) = d := by
  interval_cases d <;> decide

lemma isDigit_not_space {c : Char} (h : isDigitChar c = true) :
    isSpaceChar c = false := by
  simp only [isDigitChar, Bool.and_eq_true, decide_eq_true_eq] at h
  simp only [isSpaceChar, Bool.or_eq_false_iff, decide_eq_false_iff_not]
  omega

lemma pyStrNat_digits (n : Nat) : ∀ c ∈ pyStrNat n, isDigitChar c = true := by
  intro c hc
  unfold pyStrNat at hc
  by_cases hn : n = 0
  · rw [if_pos hn] at hc
    simp only [List.mem_singleton] at hc
    subst hc
    decide
  · rw [if_neg hn] at hc
    simp only [List.mem_reverse, List.mem_map] at hc
    obtain ⟨d, hd, rfl⟩ := hc
    exact digitChar_isDigit (Nat.digits_lt_base (by norm_num) hd)

lemma pyStrNat_ne_nil (n : Nat) : pyStrNat n ≠ [] := by
  unfold pyStrNat
  by_cases hn : n = 0
  · rw [if_pos hn]
    simp
  · rw [if_neg hn]
    cases hds : Nat.digits 10 n with
    | nil => exact absurd hds (Nat.digits_ne_nil_iff_ne_zero.mpr hn)
    | cons d ds => simp

lemma pyNat?_pyStrNat (n : Nat) : pyNat? (pyStrNat n) = some n := by
  by_cases hn : n = 0
  · subst hn
    decide
  · have hd : ∀ d ∈ Nat.digits 10 n, d < 10 :=
      fun d hd => Nat.digits_lt_base (by norm_num) hd
    have hcond : (!(pyStrNat n).isEmpty && (pyStrNat n).all isDigitChar)
        = true := by
      rw [Bool.and_eq_true]
      constructor
      · cases hc : pyStrNat n with
        | nil => exact absurd hc (pyStrNat_ne_nil n)
        | cons a as => rfl
      · exact List.all_eq_true.mpr fun c hc => pyStrNat_digits n c hc
    unfold pyNat?
    rw [if_pos hcond]
    congr 1
    conv_lhs =>
      rw [pyStrNat, if_neg hn, List.map_reverse, List.reverse_reverse,
        List.map_map]
    have hmap : (Nat.digits 10 n).map (charVal ∘ Nat.digitChar)
        = Nat.digits 10 n := by
      have h1 : (Nat.digits 10 n).map (charVal ∘ Nat.digitChar)
          = (Nat.digits 10 n).map id :=
        List.map_congr_left fun d hdm => charVal_digitChar (hd d hdm)
      rw [h1, List.map_id]
    rw [hmap, Nat.ofDigits_digits]

lemma pyInt?_pyStr (x : Int) : pyInt? (pyStr x) = some x := by
  by_cases hx : x < 0
  · unfold pyStr pyInt?
    rw [if_pos hx]
    split
    · rw [List.tail_cons, pyNat?_pyStrNat]
      show some (-(x.natAbs : Int)) = some x
      congr 1
      omega
    · simp at *
  · unfold pyStr pyInt?
    rw [if_neg hx]
    have hhead : ¬((pyStrNat x.natAbs).head? = some '-') := by
      cases hc : pyStrNat x.natAbs with
      | nil => exact absurd hc (pyStrNat_ne_nil _)
      | cons a as =>
          simp only [List.head?_cons, Option.some.injEq]
          intro ha
          have hdig : isDigitChar a = true :=
            pyStrNat_digits _ a (by rw [hc]; exact List.mem_cons_self a as)
          rw [ha] at hdig
          exact absurd hdig (by decide)
    split
    · exact absurd (by assumption) hhead
    · rw [pyNat?_pyStrNat]
      show some ((x.natAbs : Int)) = some x
      congr 1
      omega

lemma dropWhile_no_space (l : PyStr) (h : ∀ c ∈ l, isSpaceChar c = false) :
    l.dropWhile isSpaceChar = l := by
  cases l with
  | nil => rfl
  | cons a as =>
      simp [List.dropWhile_cons, h a (List.mem_cons_self a as)]

lemma strip_no_space (l : PyStr) (h : ∀ c ∈ l, isSpaceChar c = false) :
    strip l = l := by
  unfold strip
  rw [dropWhile_no_space l h,
    dropWhile_no_space l.reverse (fun c hc => h c (List.mem_reverse.mp hc))]
  exact List.reverse_reverse l

lemma pyStr_no_space (x : Int) : ∀ c ∈ pyStr x, isSpaceChar c = false := by
  intro c hc
  unfold pyStr at hc
  by_cases hx : x < 0
  · rw [if_pos hx] at hc
    rcases List.mem_cons.mp hc with rfl | hc
    · decide
    · exact isDigit_not_space (pyStrNat_digits _ c hc)
  · rw [if_neg hx] at hc
    exact isDigit_not_space (pyStrNat_digits _ c hc)

/-- Claim C3: for every integer X, `store_last_seen_tweet_id X` followed by
`get_last_seen_tweet_id` on the written file contents returns X. -/
theorem claimC3_cursor_roundtrip (x : Int) :
    get_last_seen_tweet_id (store_last_seen_tweet_id x) = some x := by
  unfold get_last_seen_tweet_id store_last_seen_tweet_id
  rw [strip_no_space _ (pyStr_no_space x)]
  exact pyInt?_pyStr x

/-- Witness for C7 at a concrete store. -/
theorem claimC7_witness :
    (∀ kv ∈ update_validation_data [("a", 1)] "a", 1 ≤ Prod.snd kv) ∧
      (validate_user [("a", 1)] "a").2 = [("a", 1)] ∧
      getRequests [("a", 1)] "a"
        ≤ getRequests (update_validation_data [("a", 1)] "a") "a" := by
  have h := claimC7_quota_invariant [("a", 1)] "a" "a"
  exact ⟨h.1 (by decide), h.2.1, h.2.2⟩

/-! ### Parameter extractor -/

/-- Inner loop of `get_params_from_tweet` (twitter_bot.py:230-233): the
first allowed value occurring in the tweet text, with `break` on the first
hit. -/
def firstMatch : List PyStr → PyStr → Option PyStr
  | [], _ => none
  | value :: rest, tweet_text =>
      if inStr value tweet_text then some value
      else firstMatch rest tweet_text

/-- Model of `TwitterBot.get_params_from_tweet` (twitter_bot.py:215-234).  Lower-
cases the tweet text, then for each parameter key in dict order assigns the
first of its allowed values found in the text, skipping parameters with no
match.  The built-up Python dict is modelled as an association list in
insertion order. -/
def get_params_from_tweet (tweet_text : PyStr)
    (params_dict : List (String × List PyStr)) : List (String × PyStr) :=
  let t := lower tweet_text
  params_dict.foldl (fun params p =>
    match firstMatch p.2 t with
    | some value => params ++ [(p.1, value)]
    | none => params) []

lemma firstMatch_eq_find? (values : List PyStr) (t : PyStr) :
    firstMatch values t = values.find? (fun v => inStr v t) := by
  induction values with
  | nil => rfl
  | cons v rest ih =>
      cases h : inStr v t with
      | true =>
          have hfind : List.find? (fun v => inStr v t) (v :: rest) = some v :=
            List.find?_cons_of_pos _ (by simpa using h)
          simp [firstMatch, h, hfind]
      | false =>
          have hfind : List.find? (fun v => inStr v t) (v :: rest)
              = List.find? (fun v => inStr v t) rest :=
            List.find?_cons_of_neg _ (by simp [h])
          simp [firstMatch, h, hfind, ih]

lemma foldl_params_eq (t : PyStr) (pd : List (String × List PyStr))
    (acc : List (String × PyStr)) :
    pd.foldl (fun params p =>
      match firstMatch p.2 t with
      | some value => params ++ [(p.1, value)]
      | none => params) acc
    = acc ++ pd.filterMap
        (fun p => (firstMatch p.2 t).map (fun v => (p.1, v))) := by
  induction pd generalizing acc with
  | nil => simp
  | cons p rest ih =>
      rw [List.foldl_cons, List.filterMap_cons]
      cases h : firstMatch p.2 t with
      | some v => simp only [h, ih, Option.map_some', List.append_assoc,
          List.singleton_append]
      | none => simp only [h, ih, Option.map_none']

/-- Claim C4: `get_params_from_tweet` maps each parameter name, in dict
order, to the first of its allowed values occurring in the lower-cased
text, omitting parameters with no match; with the two concrete examples
from the spec. -/
theorem claimC4_get_params_from_tweet :
    (∀ (tweet_text : PyStr) (params_dict : List (String × List PyStr)),
        get_params_from_tweet tweet_text params_dict
          = params_dict.filterMap (fun p =>
              (p.2.find? (fun v => inStr v (lower tweet_text))).map
                (fun v => (p.1, v)))) ∧
      get_params_from_tweet ("I want a black sketch".toList)
          [("mode", ["sketch".toList, "default".toList]),
            ("color", ["black".toList, "white".toList])]
        = [("mode", "sketch".toList), ("color", "black".toList)] ∧
      get_params_from_tweet ("no matching keywords".toList)
          [("mode", ["sketch".toList])] = [] := by
  refine ⟨?_, by decide, by decide⟩
  intro t pd
  unfold get_params_from_tweet
  rw [foldl_params_eq, List.nil_append]
  simp only [firstMatch_eq_find?]

/-! ### Tokenizer -/

/-- A platform post: an opaque record with a text body (only the `text`
attribute is used by the tokenizer). -/
structure Tweet where
  text : PyStr
deriving DecidableEq

/-- Model of `TwitterBot.preprocess_and_tokenize_tweets` (twitter_bot.py:161-178).
The nltk casual tokenizer (invoked with lower-casing, length-reduction and
handle-stripping) is an external library call, abstracted as the
`casual_tokenize` argument; `stop_words` is the list built in `__init__`
(nltk English stop words extended with the punctuation symbols). -/
def preprocess_and_tokenize_tweets (casual_tokenize : PyStr → List PyStr)
    (stop_words : List PyStr) (tweets : List Tweet) : List PyStr :=
  tweets.foldl (fun all_words tweet =>
    all_words ++ (casual_tokenize tweet.text).filter
      (fun word => !stop_words.contains word)) []

lemma foldl_extend_eq (f : Tweet → List PyStr) (tweets : List Tweet)
    (acc : List PyStr) :
    tweets.foldl (fun all_words tweet => all_words ++ f tweet) acc
      = acc ++ (tweets.map f).flatten := by
  induction tweets generalizing acc with
  | nil => simp
  | cons t rest ih =>
      rw [List.foldl_cons, ih, List.map_cons, List.flatten_cons,
        List.append_assoc]

/-- Claim C8: the tokenizer returns the flat concatenation, in input order,
of each post's token list with every stop word (and punctuation symbol)
removed; no post boundaries are retained and no stop word survives. -/
theorem claimC8_tokenize_flat (casual_tokenize : PyStr → List PyStr)
    (stop_words : List PyStr) (tweets : List Tweet) :
    preprocess_and_tokenize_tweets casual_tokenize stop_words tweets
      = (tweets.map (fun tweet => (casual_tokenize tweet.text).filter
          (fun word => !stop_words.contains word))).flatten ∧
      ∀ word ∈ preprocess_and_tokenize_tweets casual_tokenize stop_words
          tweets, stop_words.contains word = false := by
  constructor
  · exact foldl_extend_eq _ tweets []
  · intro word hw
    unfold preprocess_and_tokenize_tweets at hw
    rw [foldl_extend_eq _ tweets [], List.nil_append] at hw
    rw [List.mem_flatten] at hw
    obtain ⟨l, hl, hwl⟩ := hw
    rw [List.mem_map] at hl
    obtain ⟨tw, _, rfl⟩ := hl
    have := List.of_mem_filter hwl
    simpa using this

/-! ### Input validator -/

/-- The Python values `required_input` can take in `validate_input`: a list
of strings, a string, or anything else (e.g. the default `None`). -/
inductive PyValue where
  | pylist (l : List PyStr)
  | pystr (s : PyStr)
  | other
deriving DecidableEq

/-- Python `str(tweet_text)` where `tweet_text` may be `None`. -/
def pyStrOfText : Option PyStr → PyStr
  | none => "None".toList
  | some s => s

/-- The list-branch loop of `validate_input` (twitter_bot.py:204-207).
Note: the inner test checks membership of `r_input` in `required_input`
itself, not in the tweet text. -/
def validate_input_go (required_input : List PyStr) : List PyStr → Bool
  | [] => false
  | r_input :: rest =>
      if required_input.contains r_input then true
      else validate_input_go required_input rest

/-- Model of `TwitterBot.validate_input` (twitter_bot.py:194-213): `some` of the
returned Python bool, or `none` for the implicit `None` return when
`required_input` is neither a list nor a string. -/
def validate_input (required_input : PyValue) (tweet_text : Option PyStr) :
    Option Bool :=
  let t := lower (pyStrOfText tweet_text)
  match required_input with
  | .pylist l => some (validate_input_go l l)
  | .pystr s => some (inStr s t)
  | .other => none

/-- Claim C9: for every non-empty list `required_input` and any tweet text
`validate_input` returns True (the membership test is against the list
itself); for the empty list it returns False, and for a non-list non-string
it returns None. -/
theorem claimC9_validate_input (l : List PyStr) (t : Option PyStr) :
    (l ≠ [] → validate_input (.pylist l) t = some true) ∧
      validate_input (.pylist []) t = some false ∧
      validate_input .other t = none := by
  refine ⟨?_, rfl, rfl⟩
  intro hl
  cases l with
  | nil => exact absurd rfl hl
  | cons a as =>
      have hc : (a :: as).contains a = true := by simp
      simp [validate_input, validate_input_go, hc]

/-- Witness for C9 at concrete inputs, including `tweet_text = None` and a
text containing none of the listed strings. -/
theorem claimC9_witness :
    validate_input (.pylist ["absent".toList]) none = some true ∧
      validate_input (.pylist []) none = some false ∧
      validate_input .other none = none := by
  have h := claimC9_validate_input ["absent".toList] none
  exact ⟨h.1 (by decide), h.2.1, h.2.2⟩

/-! ### Mention fetcher -/

/-- Author metadata returned alongside mentions. -/
structure User where
  username : PyStr
deriving DecidableEq

/-- An opaque Python exception. -/
inductive PyExc where
  | exc
deriving DecidableEq

/-- Model of `TwitterBot.get_mentions` (twitter_bot.py:129-146).  The cursor file is
read at line 135, *before* the `try:` block at line 138, so a failure of
that read propagates.  Only the tweepy API request and the extraction of
`mentions.data` and `mentions.includes["users"]` sit inside `try`, where
any exception is logged and `([], [])` returned.  The external API call and
response destructuring are abstracted as `api_call`, keyed by the
`since_id` passed to it. -/
def get_mentions (cursor_file : PyStr)
    (api_call : Int → Except PyExc (List Tweet × List User)) :
    Except PyExc (List Tweet × List User) :=
  match get_last_seen_tweet_id cursor_file with
  | none => Except.error PyExc.exc
  | some last_seen_tweet_id =>
      match api_call last_seen_tweet_id with
      | Except.ok r => Except.ok r
      | Except.error _ => Except.ok ([], [])

/-- Counterexample to C5 as stated: with an unreadable cursor file, an
exception raised during a `get_mentions` call (by the cursor read that
obtains the `since_id`) propagates instead of yielding `([], [])`. -/
theorem claimC5_counterexample :
    get_mentions ("not a number".toList)
        (fun _ => Except.ok ([], []))
      = Except.error PyExc.exc ∧
      get_mentions ("not a number".toList)
          (fun _ => Except.ok ([], []))
        ≠ Except.ok ([], []) :=
  ⟨rfl, fun h => Except.noConfusion h⟩

/-- Claim C5 (amended): every exception raised by the API request or the
response handling inside the `try` block is swallowed and `([], [])`
returned; only the preceding cursor read can propagate an exception. -/
theorem claimC5_api_errors_swallowed (cursor_file : PyStr) (n : Int)
    (api_call : Int → Except PyExc (List Tweet × List User)) (e : PyExc)
    (hcursor : get_last_seen_tweet_id cursor_file = some n)
    (hapi : api_call n = Except.error e) :
    get_mentions cursor_file api_call = Except.ok ([], []) := by
  unfold get_mentions
  rw [hcursor]
  show (match api_call n with
    | Except.ok r => Except.ok r
    | Except.error _ => Except.ok ([], [])) = Except.ok ([], [])
  rw [hapi]

/-- Witness for the amended C5: a readable cursor file and a failing API
call yield `([], [])`. -/
theorem claimC5_witness :
    get_mentions ("123".toList) (fun _ => Except.error PyExc.exc)
      = Except.ok ([], []) :=
  claimC5_api_errors_swallowed ("123".toList) 123
    (fun _ => Except.error PyExc.exc) PyExc.exc (by rfl) rfl

end TwitterBot
